import Mathlib

/-!
Verification of the folder-to-CBZ conversion pipeline (`folder2cbz.py`).

This file gives a shallow embedding of the pure logic of the source:
descriptor (`galleryinfo.txt`) parsing, comic-date derivation, target
dimension computation for the transcoder, directory classification,
atomic archive staging, per-image failure isolation and the polling
loop, and proves the specified properties about those definitions.

String operations from python (`split`, `strip`, `startswith`,
`endswith`, `in`, `lower`) are implemented by structural recursion on
the character list so that concrete instances evaluate.
-/

/-- Python `a.startswith(b)`: `b` is a leading segment of `a`. -/
def isLeadingSeg : List Char → List Char → Bool
  | [], _ => true
  | _, [] => false
  | a :: as, b :: bs => a == b && isLeadingSeg as bs

/-- Python `pre in s` as used on file and directory names: some leading
segment of a tail of `s` is `pat`. -/
def containsList : List Char → List Char → Bool
  | pat, [] => pat.isEmpty
  | pat, c :: t => isLeadingSeg pat (c :: t) || containsList pat t

/-- Python `s.startswith(pre)`. -/
def pyStartsWith (s pre : String) : Bool :=
  isLeadingSeg pre.data s.data

/-- Python `s.endswith(suf)`. -/
def pyEndsWith (s suf : String) : Bool :=
  isLeadingSeg suf.data.reverse s.data.reverse

/-- Python `pat in s` (substring containment). -/
def pyContains (s pat : String) : Bool :=
  containsList pat.data s.data

/-- Everything after the first occurrence of `sep`, if any. -/
def afterCharAux : Char → List Char → Option (List Char)
  | _, [] => none
  | sep, c :: cs => if c == sep then some cs else afterCharAux sep cs

/-- Python `s.split(':', 1)[1]` (the source always guards this with a
`startswith` check, so a colon is present; absent one we return `""`). -/
def afterFirstColon (s : String) : String :=
  match afterCharAux ':' s.data with
  | some r => ⟨r⟩
  | none => ""

/-- Drop leading whitespace. -/
def dropLeadingWs : List Char → List Char
  | [] => []
  | c :: cs => if c.isWhitespace then dropLeadingWs cs else c :: cs

/-- Python `s.strip()`. -/
def pyStrip (s : String) : String :=
  ⟨((dropLeadingWs (dropLeadingWs s.data).reverse)).reverse⟩

/-- Python `s.split(sep)` with a one-character separator (keeps empty
pieces, like `str.split` with an explicit separator). -/
def splitOnChar (sep : Char) : List Char → List (List Char)
  | [] => [[]]
  | c :: cs =>
      let r := splitOnChar sep cs
      if c == sep then [] :: r
      else
        match r with
        | [] => [[c]]
        | h :: t => (c :: h) :: t

/-- Split on runs of whitespace, discarding empty pieces (how
`strptime` treats a whitespace character in the format string). -/
def splitWsAux : List Char → List Char → List (List Char)
  | [], acc => if acc.isEmpty then [] else [acc.reverse]
  | c :: cs, acc =>
      if c.isWhitespace then
        if acc.isEmpty then splitWsAux cs [] else acc.reverse :: splitWsAux cs []
      else splitWsAux cs (c :: acc)

def splitWs (l : List Char) : List (List Char) :=
  splitWsAux l []

/-- Nonempty all-digit character list. -/
def isDigitList (l : List Char) : Bool :=
  !l.isEmpty && l.all Char.isDigit

/-- Numeric value of a digit list. -/
def digitsToNat (l : List Char) : Nat :=
  l.foldl (fun a c => a * 10 + (c.toNat - 48)) 0

/-- Decimal rendering of a `Nat`, as python `f"{n}"` produces
(fuel-based so that concrete instances reduce). -/
def natDigitsAux : Nat → Nat → List Char
  | 0, _ => []
  | fuel + 1, n =>
      if n < 10 then [Char.ofNat (48 + n)]
      else natDigitsAux fuel (n / 10) ++ [Char.ofNat (48 + n % 10)]

def natToStr (n : Nat) : String :=
  ⟨natDigitsAux (n + 1) n⟩

/-- Calendar timestamp at second precision, as carried by python
`datetime` values in the source. -/
structure PyDateTime where
  year : Nat
  month : Nat
  day : Nat
  hour : Nat
  minute : Nat
  second : Nat
deriving DecidableEq, Repr

/-- Gregorian leap-year test (as validated by `datetime.strptime`). -/
def isLeapYear (y : Nat) : Bool :=
  y % 4 == 0 && (y % 100 != 0 || y % 400 == 0)

/-- Number of days in a month, used by `datetime` range validation. -/
def daysInMonth (y m : Nat) : Nat :=
  if m == 2 then (if isLeapYear y then 29 else 28)
  else if m == 4 || m == 6 || m == 9 || m == 11 then 30
  else 31

/-- One numeric field of a `strptime` format directive: all-digit string
of length between `minLen` and `maxLen` whose value lies in `[lo, hi]`. -/
def parseField (s : List Char) (minLen maxLen lo hi : Nat) : Option Nat :=
  if isDigitList s && decide (minLen ≤ s.length) && decide (s.length ≤ maxLen) then
    let n := digitsToNat s
    if lo ≤ n && n ≤ hi then some n else none
  else none

/-- The `%Y-%m-%d` part of the `strptime` formats used by the source:
4-digit year, 1-2 digit month in 1..12, 1-2 digit day valid for that
month (`datetime` rejects day-of-month overflow). -/
def parseDateParts (d : List Char) : Option (Nat × Nat × Nat) :=
  match splitOnChar '-' d with
  | [ys, ms, ds] => do
      let y ← parseField ys 4 4 0 9999
      let m ← parseField ms 1 2 1 12
      let dd ← parseField ds 1 2 1 31
      if dd ≤ daysInMonth y m then some (y, m, dd) else none
  | _ => none

/-- `datetime.strptime(s, '%Y-%m-%d %H:%M')`: `none` models the
`ValueError` raised on any mismatch (including trailing unconverted
data such as a seconds field). -/
def parseDateHM (s : String) : Option PyDateTime :=
  match splitWs s.data with
  | [d, t] =>
      match parseDateParts d, splitOnChar ':' t with
      | some (y, m, dd), [hs, ms] => do
          let h ← parseField hs 1 2 0 23
          let mi ← parseField ms 1 2 0 59
          some ⟨y, m, dd, h, mi, 0⟩
      | _, _ => none
  | _ => none

/-- `datetime.strptime(s, '%Y-%m-%d %H:%M:%S')`. -/
def parseDateHMS (s : String) : Option PyDateTime :=
  match splitWs s.data with
  | [d, t] =>
      match parseDateParts d, splitOnChar ':' t with
      | some (y, m, dd), [hs, ms, ss] => do
          let h ← parseField hs 1 2 0 23
          let mi ← parseField ms 1 2 0 59
          let se ← parseField ss 1 2 0 59
          some ⟨y, m, dd, h, mi, se⟩
      | _, _ => none
  | _ => none

/-- The per-unit metadata record built by `process_comic_folder`
(`galleryinfo` dict): title, optional author, download time, tags. -/
structure GalleryInfo where
  title : String
  author : Option String
  download_time : PyDateTime
  tags : String
deriving DecidableEq, Repr

/-- One iteration of the descriptor-parse loop in `process_comic_folder`
(lines 353-365): an `elif` chain on the line's key; a `Downloaded:`
line is parsed with the minute-precision format only, and on failure
the previous value is kept. -/
def applyGalleryLine (g : GalleryInfo) (line : String) : GalleryInfo :=
  if pyStartsWith line "Title:" then
    { g with title := pyStrip (afterFirstColon line) }
  else if pyStartsWith line "Author:" then
    { g with author := some (pyStrip (afterFirstColon line)) }
  else if pyStartsWith line "Downloaded:" then
    match parseDateHM (pyStrip (afterFirstColon line)) with
    | some dt => { g with download_time := dt }
    | none => g
  else if pyStartsWith line "Tags:" then
    { g with tags := pyStrip (afterFirstColon line) }
  else g

/-- The whole descriptor-parse loop of `process_comic_folder`, starting
from the defaults record. -/
def applyGalleryLines (g : GalleryInfo) (lines : List String) : GalleryInfo :=
  lines.foldl applyGalleryLine g

/-- Python `f"{author}"` where `author : Option`: `None` renders as the
string `None`. -/
def renderAuthor : Option String → String
  | some a => a
  | none => "None"

/-- The exact document written by `create_comicinfo_xml_galleryinfo`. -/
def create_comicinfo_xml_galleryinfo (g : GalleryInfo) : String :=
  "<?xml version=\"1.0\" encoding=\"utf-8\"?>\n" ++
  "<ComicInfo xmlns:xsi=\"http://www.w3.org/2001/XMLSchema-instance\" xsi:noNamespaceSchemaLocation=\"ComicInfo.xsd\">\n" ++
  "    <Title>" ++ g.title ++ "</Title>\n" ++
  "    <Writer>" ++ renderAuthor g.author ++ "</Writer>\n" ++
  "    <Year>" ++ natToStr g.download_time.year ++ "</Year>\n" ++
  "    <Month>" ++ natToStr g.download_time.month ++ "</Month>\n" ++
  "    <Day>" ++ natToStr g.download_time.day ++ "</Day>\n" ++
  "    <Tags>" ++ g.tags ++ "</Tags>\n" ++
  "</ComicInfo>\n"

set_option maxRecDepth 100000 in
/-- C4: a unit whose descriptor holds `Title: Foo`, `Author: Bar`,
`Downloaded: 2020-01-02 03:04`, `Tags: x,y` yields, from any defaults,
the GalleryInfo record `(Foo, Bar, 2020-01-02 03:04, x,y)`, and the
generated ComicInfo.xml document carries Title=Foo, Writer=Bar,
Year=2020, Month=1, Day=2, Tags=x,y verbatim. -/
theorem c4_descriptor_roundtrip (g : GalleryInfo) :
    applyGalleryLines g
        ["Title: Foo", "Author: Bar", "Downloaded: 2020-01-02 03:04", "Tags: x,y"]
      = ⟨"Foo", some "Bar", ⟨2020, 1, 2, 3, 4, 0⟩, "x,y"⟩ ∧
    create_comicinfo_xml_galleryinfo ⟨"Foo", some "Bar", ⟨2020, 1, 2, 3, 4, 0⟩, "x,y"⟩ =
      "<?xml version=\"1.0\" encoding=\"utf-8\"?>\n" ++
      "<ComicInfo xmlns:xsi=\"http://www.w3.org/2001/XMLSchema-instance\" xsi:noNamespaceSchemaLocation=\"ComicInfo.xsd\">\n" ++
      "    <Title>Foo</Title>\n" ++
      "    <Writer>Bar</Writer>\n" ++
      "    <Year>2020</Year>\n" ++
      "    <Month>1</Month>\n" ++
      "    <Day>2</Day>\n" ++
      "    <Tags>x,y</Tags>\n" ++
      "</ComicInfo>\n" := by
  constructor
  · rfl
  · rfl

/-- Per-unit facts the date logic reads from the filesystem: the
descriptor's lines when `galleryinfo.txt` exists, the modification
times (epoch seconds) of the unit's image files, and the unit
directory's own modification time. -/
structure ComicDirInfo where
  galleryLines : Option (List String)
  imageMtimes : List Nat
  folderMtime : Nat
deriving DecidableEq, Repr

/-- The scan inside `get_comic_date` (lines 112-125): the first
`Downloaded:` line whose value parses, trying the minute-precision
format first and the seconds-precision format second; an unparsable
value is logged and the loop falls through to later lines. -/
def findDownloadedDate : List String → Option PyDateTime
  | [] => none
  | l :: ls =>
      if pyStartsWith l "Downloaded:" then
        match parseDateHM (pyStrip (afterFirstColon l)) with
        | some dt => some dt
        | none =>
            match parseDateHMS (pyStrip (afterFirstColon l)) with
            | some dt => some dt
            | none => findDownloadedDate ls
      else findDownloadedDate ls

/-- Civil date from a day count since 1970-01-01 (era decomposition). -/
def civilFromDays (z0 : Nat) : Nat × Nat × Nat :=
  let z := z0 + 719468
  let era := z / 146097
  let doe := z % 146097
  let yoe := (doe - doe / 1460 + doe / 36524 - doe / 146096) / 365
  let y := yoe + era * 400
  let doy := doe - (365 * yoe + yoe / 4 - yoe / 100)
  let mp := (5 * doy + 2) / 153
  let d := doy - (153 * mp + 2) / 5 + 1
  let m := if mp < 10 then mp + 3 else mp - 9
  (if m ≤ 2 then y + 1 else y, m, d)

/-- `datetime.fromtimestamp` on a nonnegative epoch-second count (the
local-timezone offset is abstracted to UTC; the claims compare derived
dates with each other, never with wall-clock values). -/
def fromTimestamp (t : Nat) : PyDateTime :=
  let days := t / 86400
  let rem := t % 86400
  let ymd := civilFromDays days
  ⟨ymd.1, ymd.2.1, ymd.2.2, rem / 3600, rem % 3600 / 60, rem % 60⟩

/-- Python `max(list)` over the collected `st_mtime` values (the source
only calls it on a nonempty list). -/
def maxNat (l : List Nat) : Nat :=
  l.foldl max 0

/-- Fallback chain of `get_comic_date` (lines 130-152): latest image
modification time, else the folder's own modification time. -/
def getComicDateFallback (u : ComicDirInfo) : PyDateTime :=
  if u.imageMtimes.isEmpty then fromTimestamp u.folderMtime
  else fromTimestamp (maxNat u.imageMtimes)

/-- `get_comic_date`: descriptor `Downloaded:` date when one parses,
else latest image mtime, else folder mtime. -/
def get_comic_date (u : ComicDirInfo) : PyDateTime :=
  match u.galleryLines with
  | some lines =>
      match findDownloadedDate lines with
      | some dt => dt
      | none => getComicDateFallback u
  | none => getComicDateFallback u

/-- `latest_mod_time` as computed in `process_comic_folder` (lines
324-335): the maximum image mtime, or `datetime.now()` when the unit
has no images. -/
def latest_mod_time (u : ComicDirInfo) (now : PyDateTime) : PyDateTime :=
  if u.imageMtimes.isEmpty then now
  else fromTimestamp (maxNat u.imageMtimes)

/-- The two dates `process_comic_folder` attaches to the produced
archive: the value passed to `os.utime` (line 389), and the date that
selects the `year/month` output subdirectory when `organize_by_date`
is on (lines 376-380). -/
structure PackagingDates where
  utime : PyDateTime
  dirDate : Option PyDateTime
deriving DecidableEq, Repr

/-- Date handling of `process_comic_folder` (lines 372-389): the CBZ's
filesystem timestamps come from `latest_mod_time`, while
`get_comic_date` is consulted only for the date-organized directory
structure. -/
def processComicFolderDates (u : ComicDirInfo) (now : PyDateTime)
    (organize_by_date : Bool) : PackagingDates :=
  ⟨latest_mod_time u now,
   if organize_by_date then some (get_comic_date u) else none⟩

/-- C5 counterexample: a unit whose descriptor says
`Downloaded: 2020-01-02 03:04` and whose single image has mtime 0
(epoch). The derived date with descriptor priority is 2020-01-02
03:04, but the value passed to `os.utime` is the image mtime
(1970-01-01), so the archive's timestamps are not set to the derived
date. -/
theorem c5_counterexample :
    get_comic_date ⟨some ["Downloaded: 2020-01-02 03:04"], [0], 5⟩
      = ⟨2020, 1, 2, 3, 4, 0⟩ ∧
    (processComicFolderDates ⟨some ["Downloaded: 2020-01-02 03:04"], [0], 5⟩
        ⟨2025, 1, 1, 0, 0, 0⟩ true).utime = ⟨1970, 1, 1, 0, 0, 0⟩ ∧
    (⟨1970, 1, 1, 0, 0, 0⟩ : PyDateTime) ≠ ⟨2020, 1, 2, 3, 4, 0⟩ := by
  decide

/-- C5 amended: the archive's mtime/atime are set to the latest image
modification time (or the current time when the unit has no images),
independent of the descriptor; the descriptor-over-image-over-folder
priority date (`get_comic_date`) selects only the `year/month` output
subdirectory when date organization is enabled. -/
theorem c5_amended_dates (u : ComicDirInfo) (now : PyDateTime) (org : Bool) :
    (processComicFolderDates u now org).utime
        = (if u.imageMtimes.isEmpty then now
           else fromTimestamp (maxNat u.imageMtimes)) ∧
    (processComicFolderDates u now org).dirDate
        = (if org then some (get_comic_date u) else none) ∧
    (∀ ls dt, u.galleryLines = some ls → findDownloadedDate ls = some dt →
        get_comic_date u = dt) ∧
    (∀ ls, u.galleryLines = some ls → findDownloadedDate ls = none →
        get_comic_date u = getComicDateFallback u) ∧
    (u.galleryLines = none → get_comic_date u = getComicDateFallback u) ∧
    (u.imageMtimes.isEmpty = false →
        getComicDateFallback u = fromTimestamp (maxNat u.imageMtimes)) ∧
    (u.imageMtimes.isEmpty = true →
        getComicDateFallback u = fromTimestamp u.folderMtime) := by
  refine ⟨rfl, rfl, ?_, ?_, ?_, ?_, ?_⟩
  · intro ls dt hls hdt
    simp [get_comic_date, hls, hdt]
  · intro ls hls hdt
    simp [get_comic_date, hls, hdt]
  · intro hls
    simp [get_comic_date, hls]
  · intro hm
    simp [getComicDateFallback, hm]
  · intro hm
    simp [getComicDateFallback, hm]

/-- Witness for `c5_amended_dates` at the unit of the counterexample. -/
theorem c5_amended_dates_witness :
    get_comic_date ⟨some ["Downloaded: 2020-01-02 03:04"], [0], 5⟩
      = ⟨2020, 1, 2, 3, 4, 0⟩ ∧
    (processComicFolderDates ⟨some ["Downloaded: 2020-01-02 03:04"], [0], 5⟩
        ⟨2025, 1, 1, 0, 0, 0⟩ true).utime = fromTimestamp 0 := by
  have h := c5_amended_dates ⟨some ["Downloaded: 2020-01-02 03:04"], [0], 5⟩
    ⟨2025, 1, 1, 0, 0, 0⟩ true
  exact ⟨h.2.2.1 ["Downloaded: 2020-01-02 03:04"] ⟨2020, 1, 2, 3, 4, 0⟩ rfl
      (by decide),
    h.1.trans (by decide)⟩

/-- C7 counterexample: a descriptor line `Downloaded: 2020-01-02
03:04:05` parses under the seconds-precision format, yet the
GalleryInfo download time keeps its default: the descriptor parse in
`process_comic_folder` makes no secondary attempt with seconds (only
`get_comic_date` does). -/
theorem c7_counterexample :
    (applyGalleryLines ⟨"t", none, fromTimestamp 0, ""⟩
        ["Downloaded: 2020-01-02 03:04:05"]).download_time = fromTimestamp 0 ∧
    parseDateHMS "2020-01-02 03:04:05" = some ⟨2020, 1, 2, 3, 4, 5⟩ ∧
    fromTimestamp 0 ≠ (⟨2020, 1, 2, 3, 4, 5⟩ : PyDateTime) := by
  decide

/-- C7 amended: for a `Downloaded:` descriptor line, `get_comic_date`
tries `YYYY-MM-DD HH:MM` first and `YYYY-MM-DD HH:MM:SS` second,
falling through (default stands) when both fail; the GalleryInfo
record of `process_comic_folder` tries only the minute-precision
format and keeps its default otherwise. -/
theorem c7_date_format_fallback (l : String) (rest : List String)
    (g : GalleryInfo)
    (hT : pyStartsWith l "Title:" = false)
    (hA : pyStartsWith l "Author:" = false)
    (hD : pyStartsWith l "Downloaded:" = true) :
    (∀ dt, parseDateHM (pyStrip (afterFirstColon l)) = some dt →
        findDownloadedDate (l :: rest) = some dt ∧
        (applyGalleryLine g l).download_time = dt) ∧
    (∀ dt, parseDateHM (pyStrip (afterFirstColon l)) = none →
        parseDateHMS (pyStrip (afterFirstColon l)) = some dt →
        findDownloadedDate (l :: rest) = some dt ∧
        (applyGalleryLine g l).download_time = g.download_time) ∧
    (parseDateHM (pyStrip (afterFirstColon l)) = none →
        parseDateHMS (pyStrip (afterFirstColon l)) = none →
        findDownloadedDate (l :: rest) = findDownloadedDate rest ∧
        (applyGalleryLine g l).download_time = g.download_time) := by
  refine ⟨?_, ?_, ?_⟩
  · intro dt h1
    constructor
    · simp [findDownloadedDate, hD, h1]
    · simp [applyGalleryLine, hT, hA, hD, h1]
  · intro dt h1 h2
    constructor
    · simp [findDownloadedDate, hD, h1, h2]
    · simp [applyGalleryLine, hT, hA, hD, h1]
  · intro h1 h2
    constructor
    · simp [findDownloadedDate, hD, h1, h2]
    · simp [applyGalleryLine, hT, hA, hD, h1]

/-- Witness for `c7_date_format_fallback`: with seconds present, the
comic-date scan succeeds via the secondary format while the
GalleryInfo download time keeps its default. -/
theorem c7_date_format_fallback_witness :
    findDownloadedDate ["Downloaded: 2020-01-02 03:04:05"]
      = some ⟨2020, 1, 2, 3, 4, 5⟩ ∧
    (applyGalleryLine ⟨"t", none, ⟨1970, 1, 1, 0, 0, 0⟩, ""⟩
        "Downloaded: 2020-01-02 03:04:05").download_time
      = ⟨1970, 1, 1, 0, 0, 0⟩ := by
  exact (c7_date_format_fallback "Downloaded: 2020-01-02 03:04:05" []
      ⟨"t", none, ⟨1970, 1, 1, 0, 0, 0⟩, ""⟩ (by decide) (by decide)
      (by decide)).2.1 ⟨2020, 1, 2, 3, 4, 5⟩ (by decide) (by decide)

/-- Python `round` (banker's rounding: an exact half goes to the even
neighbour), applied by `process_image` to the scaled dimensions. -/
def pyRound (q : ℚ) : ℤ :=
  if q - ⌊q⌋ = 1 / 2 then (if ⌊q⌋ % 2 = 0 then ⌊q⌋ else ⌊q⌋ + 1) else round q

/-- Lines 188-191 of `process_image`: increment an odd dimension by 1. -/
def evenBump (n : ℤ) : ℤ :=
  if n % 2 ≠ 0 then n + 1 else n

/-- The target dimensions `process_image` passes to the transcoder's
scale filter (lines 179-191).  `s` stands for the scale factor the
source computes as the floating-point value
`(max_resolution / resolution) ** 0.5`; it is only consulted when
`resolution > max_resolution`. -/
def process_image_dims (width height max_resolution : Nat) (s : ℚ) : ℤ × ℤ :=
  (evenBump (if max_resolution < width * height then pyRound (width * s) else width),
   evenBump (if max_resolution < width * height then pyRound (height * s) else height))

theorem pyRound_le (q : ℚ) : (pyRound q : ℚ) ≤ q + 1 / 2 := by
  unfold pyRound
  split
  case isTrue h =>
    split
    · have h2 := Int.floor_le q
      linarith
    · push_cast
      linarith
  case isFalse h =>
    obtain ⟨h3, h4⟩ := abs_le.mp (abs_sub_round q)
    linarith

theorem evenBump_even (n : ℤ) : evenBump n % 2 = 0 := by
  unfold evenBump
  split <;> omega

theorem evenBump_le (n : ℤ) : evenBump n ≤ n + 1 := by
  unfold evenBump
  split <;> omega

theorem le_evenBump (n : ℤ) : n ≤ evenBump n := by
  unfold evenBump
  split <;> omega

/-- C2 counterexample: a 3x3 image with `max_resolution = 100` (so
`width*height <= max_resolution`) is transcoded at 4x4, not 3x3: the
evenness adjustment applies even when no scale-down occurs. -/
theorem c2_counterexample :
    3 * 3 ≤ 100 ∧ process_image_dims 3 3 100 1 ≠ (3, 3) := by
  exact ⟨by decide, by decide⟩

/-- C2 amended: when `width*height <= max_resolution` no scale-down is
applied — each target dimension equals the source dimension rounded up
to the next even value (unchanged when already even, `+1` when odd),
so dimensions never shrink and grow by at most 1. -/
theorem c2_amended_no_scaledown (w h maxres : Nat) (s : ℚ)
    (hle : w * h ≤ maxres) :
    process_image_dims w h maxres s = (evenBump w, evenBump h) ∧
    (w : ℤ) ≤ (process_image_dims w h maxres s).1 ∧
    (process_image_dims w h maxres s).1 ≤ (w : ℤ) + 1 ∧
    (h : ℤ) ≤ (process_image_dims w h maxres s).2 ∧
    (process_image_dims w h maxres s).2 ≤ (h : ℤ) + 1 ∧
    (w % 2 = 0 → (process_image_dims w h maxres s).1 = (w : ℤ)) ∧
    (h % 2 = 0 → (process_image_dims w h maxres s).2 = (h : ℤ)) := by
  have hc : ¬ (maxres < w * h) := not_lt.mpr hle
  simp only [process_image_dims, if_neg hc]
  refine ⟨trivial, le_evenBump _, evenBump_le _, le_evenBump _, evenBump_le _,
    ?_, ?_⟩
  · intro hw
    have hw2 : (w : ℤ) % 2 = 0 := by omega
    simp [evenBump, hw2]
  · intro hh
    have hh2 : (h : ℤ) % 2 = 0 := by omega
    simp [evenBump, hh2]

/-- Witness for `c2_amended_no_scaledown` at a 4x6 image under a
sufficient resolution budget: the dimensions pass through unchanged. -/
theorem c2_amended_no_scaledown_witness :
    4 * 6 ≤ 100 ∧ process_image_dims 4 6 100 (1 / 2) = (4, 6) := by
  have h := c2_amended_no_scaledown 4 6 100 (1 / 2) (by decide)
  exact ⟨by decide, h.1.trans (by decide)⟩

/-- C3: when `width*height > max_resolution` the target dimensions are
the source dimensions scaled by the square-root factor, rounded to
nearest, then bumped to even; both outputs are even, and the product
respects the budget up to the rounding slack:
`(2*out_w - 3) * (2*out_h - 3) <= 4 * max_resolution`.  The scale
factor `s` satisfies `s*s*(w*h) <= max_resolution`, which is the
defining property of `sqrt(max_resolution/(w*h))`. -/
theorem c3_scaled_dims_even_and_bounded (w h maxres : Nat) (s : ℚ)
    (hgt : maxres < w * h) (hs : 0 ≤ s)
    (hbound : s * s * ((w : ℚ) * (h : ℚ)) ≤ (maxres : ℚ))
    (how : 2 ≤ (process_image_dims w h maxres s).1)
    (hoh : 2 ≤ (process_image_dims w h maxres s).2) :
    (process_image_dims w h maxres s).1 = evenBump (pyRound ((w : ℚ) * s)) ∧
    (process_image_dims w h maxres s).2 = evenBump (pyRound ((h : ℚ) * s)) ∧
    (process_image_dims w h maxres s).1 % 2 = 0 ∧
    (process_image_dims w h maxres s).2 % 2 = 0 ∧
    (2 * (process_image_dims w h maxres s).1 - 3) *
        (2 * (process_image_dims w h maxres s).2 - 3) ≤ 4 * (maxres : ℤ) := by
  simp only [process_image_dims, if_pos hgt] at how hoh ⊢
  refine ⟨trivial, trivial, evenBump_even _, evenBump_even _, ?_⟩
  have hwa : ((evenBump (pyRound ((w : ℚ) * s)) : ℤ) : ℚ) ≤ (w : ℚ) * s + 3 / 2 := by
    have h1 := pyRound_le ((w : ℚ) * s)
    have h2 : ((evenBump (pyRound ((w : ℚ) * s)) : ℤ) : ℚ)
        ≤ (pyRound ((w : ℚ) * s) : ℚ) + 1 := by
      exact_mod_cast evenBump_le (pyRound ((w : ℚ) * s))
    linarith
  have hhb : ((evenBump (pyRound ((h : ℚ) * s)) : ℤ) : ℚ) ≤ (h : ℚ) * s + 3 / 2 := by
    have h1 := pyRound_le ((h : ℚ) * s)
    have h2 : ((evenBump (pyRound ((h : ℚ) * s)) : ℤ) : ℚ)
        ≤ (pyRound ((h : ℚ) * s) : ℚ) + 1 := by
      exact_mod_cast evenBump_le (pyRound ((h : ℚ) * s))
    linarith
  have ha2 : (2 : ℚ) ≤ ((evenBump (pyRound ((w : ℚ) * s)) : ℤ) : ℚ) := by
    exact_mod_cast how
  have hb2 : (2 : ℚ) ≤ ((evenBump (pyRound ((h : ℚ) * s)) : ℤ) : ℚ) := by
    exact_mod_cast hoh
  have hws : 0 ≤ (w : ℚ) * s := mul_nonneg (Nat.cast_nonneg w) hs
  have hhs : 0 ≤ (h : ℚ) * s := mul_nonneg (Nat.cast_nonneg h) hs
  have key : (2 * ((evenBump (pyRound ((w : ℚ) * s)) : ℤ) : ℚ) - 3) *
      (2 * ((evenBump (pyRound ((h : ℚ) * s)) : ℤ) : ℚ) - 3)
      ≤ (2 * ((w : ℚ) * s)) * (2 * ((h : ℚ) * s)) := by
    apply mul_le_mul (by linarith) (by linarith) (by linarith) (by linarith)
  have key2 : (2 * ((w : ℚ) * s)) * (2 * ((h : ℚ) * s))
      = 4 * (s * s * ((w : ℚ) * (h : ℚ))) := by ring
  have key3 : (2 * ((evenBump (pyRound ((w : ℚ) * s)) : ℤ) : ℚ) - 3) *
      (2 * ((evenBump (pyRound ((h : ℚ) * s)) : ℤ) : ℚ) - 3)
      ≤ 4 * (maxres : ℚ) := by
    rw [key2] at key
    linarith
  exact_mod_cast key3

/-- Witness for `c3_scaled_dims_even_and_bounded`: a 2000x2000 image
against a budget of 1000000 with scale factor 1/2 lands at 1000x1000,
even and within the bound. -/
theorem c3_scaled_dims_witness :
    (process_image_dims 2000 2000 1000000 (1 / 2)).1 % 2 = 0 ∧
    (process_image_dims 2000 2000 1000000 (1 / 2)).2 % 2 = 0 ∧
    (2 * (process_image_dims 2000 2000 1000000 (1 / 2)).1 - 3) *
        (2 * (process_image_dims 2000 2000 1000000 (1 / 2)).2 - 3)
      ≤ 4 * 1000000 := by
  have hd : process_image_dims 2000 2000 1000000 (1 / 2) = (1000, 1000) := by
    norm_num [process_image_dims, pyRound, evenBump, round_eq]
  have h := c3_scaled_dims_even_and_bounded 2000 2000 1000000 (1 / 2)
    (by norm_num) (by norm_num) (by norm_num)
    (by rw [hd]; norm_num) (by rw [hd]; norm_num)
  exact ⟨h.2.2.1, h.2.2.2.1, h.2.2.2.2⟩

/-- ASCII lowering, python `s.lower()` on the filenames involved. -/
def lowerChar (c : Char) : Char :=
  if 65 ≤ c.toNat && c.toNat ≤ 90 then Char.ofNat (c.toNat + 32) else c

def pyLower (s : String) : String :=
  ⟨s.data.map lowerChar⟩

/-- The module-level `image_extensions` list. -/
def image_extensions : List String :=
  [".png", ".jpg", ".jpeg", ".webp", ".heic", ".heif", ".gif", ".tiff", ".tif"]

/-- `file.lower().endswith(tuple(image_extensions))`. -/
def isImageName (f : String) : Bool :=
  image_extensions.any (fun ext => pyEndsWith (pyLower f) ext)

/-- `'@eaDir' in name or '@Recycle' in name`. -/
def hasReservedName (f : String) : Bool :=
  pyContains f "@eaDir" || pyContains f "@Recycle"

/-- The `is_imgfiles` predicate of `get_img_dir_comb` (lines 263-273):
drop names containing the reserved substrings, reject when more than 2
non-image files remain, accept when a (nonempty) remainder contains an
image file. -/
def is_imgfiles (files : List String) : Bool :=
  let files2 := files.filter (fun f => !hasReservedName f)
  let non_imgfiles := files2.filter (fun f => !isImageName f)
  if non_imgfiles.length > 2 then false
  else if files2.length > 0 && files2.any isImageName then true
  else false

/-- `get_img_dir_comb` over the walked `(root, files)` entries: keep a
directory when its files qualify and its path avoids the reserved
substrings. -/
def get_img_dir_comb (walk : List (String × List String)) :
    List (String × List String) :=
  walk.filter (fun e => is_imgfiles e.2 && !hasReservedName e.1)

/-- C8: for the default-mode classifier, an empty directory never
qualifies, a directory with only non-image files never qualifies, and
more than 2 remaining non-image files disqualify the directory
regardless of its image count; a disqualified directory never appears
in the classifier's output. -/
theorem c8_classifier_rejections (walk : List (String × List String))
    (root : String) (files : List String) :
    is_imgfiles [] = false ∧
    (files.all (fun f => !isImageName f) = true → is_imgfiles files = false) ∧
    (2 < ((files.filter (fun f => !hasReservedName f)).filter
        (fun f => !isImageName f)).length → is_imgfiles files = false) ∧
    (is_imgfiles files = false → (root, files) ∉ get_img_dir_comb walk) := by
  refine ⟨rfl, ?_, ?_, ?_⟩
  · intro hall
    have h2 : (files.filter (fun f => !hasReservedName f)).any isImageName
        = false := by
      rw [List.any_eq_false]
      intro f hf
      have hmem := List.mem_of_mem_filter hf
      have := List.all_eq_true.mp hall f hmem
      simpa using this
    simp [is_imgfiles, h2]
  · intro hlen
    simp only [is_imgfiles]
    rw [if_pos]
    exact hlen
  · intro hfalse hmem
    rw [get_img_dir_comb, List.mem_filter] at hmem
    have := hmem.2
    simp [hfalse] at this

/-- Witness for `c8_classifier_rejections` at concrete directories. -/
theorem c8_classifier_rejections_witness :
    is_imgfiles [] = false ∧
    is_imgfiles ["notes.txt"] = false ∧
    is_imgfiles ["a.txt", "b.txt", "c.txt", "d.jpg", "e.jpg"] = false := by
  exact ⟨(c8_classifier_rejections [] "" []).1,
    (c8_classifier_rejections [] "" ["notes.txt"]).2.1 (by decide),
    (c8_classifier_rejections [] "" ["a.txt", "b.txt", "c.txt", "d.jpg", "e.jpg"]).2.2.1
      (by decide)⟩

/-- Observable effects of one iteration of the polling loop in `main`
(lines 458-547): the updated `scan_needed` flag, how many rescan
notifications the iteration fires, and how long it sleeps before the
next scan. -/
structure PollEffects where
  scanNeeded : Bool
  fired : Nat
  sleep : Option Nat
deriving DecidableEq, Repr

/-- One iteration of the `while True` loop of `main`, driven by the
number of `.tar.gz` inputs the scan found: an empty scan fires the
notification exactly when `scan_needed` is set, clears it, and sleeps
60 seconds; a non-empty scan processes the batch (firing nothing) and
sets `scan_needed`. -/
def pollStep (scan_needed : Bool) (found : Nat) : PollEffects :=
  if found = 0 then ⟨false, if scan_needed then 1 else 0, some 60⟩
  else ⟨true, 0, none⟩

/-- Total notifications fired along a trace of scan results. -/
def pollFired (scan_needed : Bool) : List Nat → Nat
  | [] => 0
  | f :: rest =>
      (pollStep scan_needed f).fired +
        pollFired (pollStep scan_needed f).scanNeeded rest

theorem pollFired_cleared (n : Nat) :
    pollFired false (List.replicate n 0) = 0 := by
  induction n with
  | zero => rfl
  | succ k ih =>
      simp only [List.replicate, pollFired, pollStep]
      simpa using ih

/-- C9: a processing cycle (at least one input found) fires no
notification — in particular not one per unit — and raises the
`scan_needed` flag; any nonempty run of consecutive idle cycles that
follows fires the notification exactly once in total; every idle cycle
sleeps the fixed 60-second interval. -/
theorem c9_notify_once_per_idle_transition (s : Bool) (k n : Nat) :
    (0 < k → (pollStep s k).fired = 0 ∧ (pollStep s k).scanNeeded = true) ∧
    (pollStep s 0).sleep = some 60 ∧
    (0 < n → pollFired true (List.replicate n 0) = 1) := by
  refine ⟨?_, ?_, ?_⟩
  · intro hk
    have : ¬ k = 0 := by omega
    simp [pollStep, this]
  · simp [pollStep]
  · intro hn
    obtain ⟨m, rfl⟩ : ∃ m, n = m + 1 := ⟨n - 1, by omega⟩
    simp only [List.replicate, pollFired, pollStep]
    simpa using pollFired_cleared m

/-- Witness for `c9_notify_once_per_idle_transition`: a cycle that
found 2 archives fires nothing, and the following 3 idle cycles fire
exactly one notification in total. -/
theorem c9_notify_once_witness :
    (pollStep false 2).fired = 0 ∧ (pollStep false 2).scanNeeded = true ∧
    pollFired true (List.replicate 3 0) = 1 := by
  have h := c9_notify_once_per_idle_transition false 2 3
  exact ⟨(h.1 (by decide)).1, (h.1 (by decide)).2, h.2.2 (by decide)⟩

/-- The steps of `process_image` (lines 160-231) that external effects
can make raise: HEIC pre-conversion, ffprobe dimension probing, the
ffmpeg transcode (its non-zero exit becomes a failed `assert`), the
exiftool timestamp read, the conditional timestamp write, the tag
copy, and the backup/intermediate cleanup. -/
inductive ImgStep
  | preconv
  | probe
  | transcode
  | exifRead
  | exifWrite
  | tagCopy
  | cleanup
deriving DecidableEq, Repr

/-- The step sequence one image goes through: pre-conversion only for
HEIC/HEIF sources, the timestamp write only when the source lacks
`DateTimeOriginal`. -/
def imgSteps (isHeic hasExifDate : Bool) : List ImgStep :=
  (if isHeic then [ImgStep.preconv] else []) ++
  [ImgStep.probe, ImgStep.transcode, ImgStep.exifRead] ++
  (if hasExifDate then [] else [ImgStep.exifWrite]) ++
  [ImgStep.tagCopy, ImgStep.cleanup]

/-- The body of the `try` block: run the steps in order, tracking
whether the transcode has written the target file; `error` is an
exception escaping the body, carrying that flag. -/
def runSteps : List ImgStep → Option ImgStep → Bool → Except Bool Bool
  | [], _, written => .ok written
  | st :: rest, failAt, written =>
      if failAt = some st then .error written
      else runSteps rest failAt (written || st == ImgStep.transcode)

/-- What a caller observes of one `process_image` call. -/
structure ImgOutcome where
  raised : Bool
  targetWritten : Bool
  succeeded : Bool
  logged : Bool
deriving DecidableEq, Repr

/-- `process_image` (lines 160-235): the whole body sits in a
`try/except Exception` whose handler logs and returns, so no exception
propagates to the caller. -/
def process_image_run (isHeic hasExifDate : Bool) (failAt : Option ImgStep) :
    ImgOutcome :=
  match runSteps (imgSteps isHeic hasExifDate) failAt false with
  | .ok w => ⟨false, w, true, false⟩
  | .error w => ⟨false, w, false, true⟩

/-- One image of a unit, with the failure the environment injects. -/
structure ImgJob where
  name : String
  isHeic : Bool
  hasExifDate : Bool
  failAt : Option ImgStep
deriving DecidableEq, Repr

def imgOutcome (j : ImgJob) : ImgOutcome :=
  process_image_run j.isHeic j.hasExifDate j.failAt

/-- The image loop of `process_comic_folder` (lines 325-329): every
image is attempted in order; the temp directory accumulates the files
whose transcode completed. -/
def folderLoop : List ImgJob → List String × List String
  | [] => ([], [])
  | j :: rest =>
      let o := imgOutcome j
      let r := folderLoop rest
      (j.name :: r.1, if o.targetWritten then j.name :: r.2 else r.2)

/-- The archive members `compress_to_cbz` packs: every file present in
the temp directory, which is the transcoded images plus the
`ComicInfo.xml` written afterwards. -/
def cbzMembers (jobs : List ImgJob) : List String :=
  (folderLoop jobs).2 ++ ["ComicInfo.xml"]

theorem runSteps_ok_of_written (l : List ImgStep) (f : Option ImgStep)
    (w : Bool) : runSteps l f true = .ok w → w = true := by
  induction l with
  | nil => intro h; cases h; rfl
  | cons st rest ih =>
      intro h
      rw [runSteps] at h
      split at h
      · cases h
      · exact ih h

theorem runSteps_mem_transcode (l : List ImgStep) (f : Option ImgStep)
    (w0 w : Bool) : ImgStep.transcode ∈ l → runSteps l f w0 = .ok w →
    w = true := by
  induction l generalizing w0 with
  | nil => intro hm; cases hm
  | cons st rest ih =>
      intro hm h
      rw [runSteps] at h
      split at h
      · cases h
      · rcases List.mem_cons.mp hm with heq | hmem
        · subst heq
          simp only [beq_self_eq_true, Bool.or_true] at h
          exact runSteps_ok_of_written rest f w h
        · exact ih _ hmem h

theorem transcode_mem_imgSteps (a b : Bool) :
    ImgStep.transcode ∈ imgSteps a b := by
  cases a <;> cases b <;> decide

theorem imgOutcome_succeeded_written (j : ImgJob) :
    (imgOutcome j).succeeded = true → (imgOutcome j).targetWritten = true := by
  unfold imgOutcome process_image_run
  cases h : runSteps (imgSteps j.isHeic j.hasExifDate) j.failAt false with
  | ok w =>
      intro _
      simpa using runSteps_mem_transcode _ j.failAt false w
        (transcode_mem_imgSteps _ _) h
  | error w => intro hc; simp at hc

theorem folderLoop_written_mem (jobs : List ImgJob) (j : ImgJob) :
    j ∈ jobs → (imgOutcome j).targetWritten = true →
    j.name ∈ (folderLoop jobs).2 := by
  induction jobs with
  | nil => intro hm; cases hm
  | cons k rest ih =>
      intro hm hw
      rcases List.mem_cons.mp hm with heq | hmem
      · subst heq
        simp [folderLoop, hw]
      · simp only [folderLoop]
        split
        · exact List.mem_cons_of_mem _ (ih hmem hw)
        · exact ih hmem hw

/-- C6: whatever failure any step of the normalization pipeline
injects, `process_image` returns without raising; the unit loop
attempts every image; the archive is still produced with the metadata
document among its members; and every image whose normalization fully
succeeded is among the archive members. -/
theorem c6_image_failure_isolated (jobs : List ImgJob) (a b : Bool)
    (f : Option ImgStep) :
    (process_image_run a b f).raised = false ∧
    (folderLoop jobs).1 = jobs.map (fun j => j.name) ∧
    "ComicInfo.xml" ∈ cbzMembers jobs ∧
    (∀ j ∈ jobs, (imgOutcome j).succeeded = true →
        j.name ∈ cbzMembers jobs) := by
  refine ⟨?_, ?_, ?_, ?_⟩
  · unfold process_image_run
    cases h : runSteps (imgSteps a b) f false <;> simp [h]
  · induction jobs with
    | nil => rfl
    | cons k rest ih => simp [folderLoop, ih]
  · simp [cbzMembers]
  · intro j hj hs
    exact List.mem_append_left _
      (folderLoop_written_mem jobs j hj (imgOutcome_succeeded_written j hs))

/-- Witness for `c6_image_failure_isolated`: a unit whose first image
fails at the transcode step and whose second succeeds — nothing
raises, both are attempted, and the archive holds the survivor plus
ComicInfo.xml. -/
theorem c6_image_failure_isolated_witness :
    (process_image_run false true (some ImgStep.transcode)).raised = false ∧
    (folderLoop [⟨"001.avif", false, true, some ImgStep.transcode⟩,
        ⟨"002.avif", false, false, none⟩]).1 = ["001.avif", "002.avif"] ∧
    "ComicInfo.xml" ∈ cbzMembers [⟨"001.avif", false, true, some ImgStep.transcode⟩,
        ⟨"002.avif", false, false, none⟩] ∧
    "002.avif" ∈ cbzMembers [⟨"001.avif", false, true, some ImgStep.transcode⟩,
        ⟨"002.avif", false, false, none⟩] := by
  have h := c6_image_failure_isolated
    [⟨"001.avif", false, true, some ImgStep.transcode⟩,
     ⟨"002.avif", false, false, none⟩] false true (some ImgStep.transcode)
  exact ⟨h.1, h.2.1.trans (by decide), h.2.2.1,
    h.2.2.2 ⟨"002.avif", false, false, none⟩ (by decide) (by decide)⟩


/-!
Archive staging model for the atomic-packaging property.  A filesystem
is a list of `(path, fully-written)` entries; paths are component
lists.  `main` builds everything inside a `TemporaryDirectory`
(`comic_process_*`): extraction under `extracted/`, the CBZ under
`cbz_output/` (where `process_comic_folder` has `compress_to_cbz`
write it, partially on failure), and only a completely written archive
is moved out to the final target; the temporary tree is removed when
the context manager closes, on success and failure alike.
-/

abbrev FsPath := List String

abbrev FS := List (FsPath × Bool)

def underDir : FsPath → FsPath → Bool
  | [], _ => true
  | _, [] => false
  | a :: d, b :: p => a == b && underDir d p

def filesUnder (d : FsPath) (fs : FS) : FS :=
  fs.filter (fun e => underDir d e.1)

def removeTree (d : FsPath) (fs : FS) : FS :=
  fs.filter (fun e => !underDir d e.1)

def writeFile (p : FsPath) (complete : Bool) (fs : FS) : FS :=
  (p, complete) :: fs.filter (fun e => e.1 != p)

def moveFile (src dst : FsPath) (fs : FS) : FS :=
  match fs.find? (fun e => e.1 == src) with
  | some e => writeFile dst e.2 (fs.filter (fun x => x.1 != src))
  | none => fs

def compress_to_cbz_fs (p : FsPath) (ok : Bool) (fs : FS) : Except FS FS :=
  if ok then .ok (writeFile p true fs) else .error (writeFile p false fs)

def cbzRelPath (name : String) (ym : Option (String × String)) : FsPath :=
  match ym with
  | some d => [d.1, d.2, name ++ ".cbz"]
  | none => [name ++ ".cbz"]

def processComicFolderPack (targetDir : FsPath) (name : String)
    (ym : Option (String × String)) (ok : Bool) (fs : FS) :
    Except FS (FS × FsPath) :=
  match compress_to_cbz_fs (targetDir ++ cbzRelPath name ym) ok fs with
  | .ok fs2 => .ok (fs2, targetDir ++ cbzRelPath name ym)
  | .error fs2 => .error fs2

def mainProcessArchive (mainTemp finalDest : FsPath) (extracted : List FsPath)
    (name : String) (ym : Option (String × String)) (pkgOk : Bool)
    (fs : FS) : FS :=
  let fs1 := extracted.foldl
    (fun a rp => writeFile (mainTemp ++ "extracted" :: rp) true a) fs
  match processComicFolderPack (mainTemp ++ ["cbz_output"]) name ym pkgOk fs1 with
  | .ok r => removeTree mainTemp
      (moveFile r.2 (finalDest ++ r.2.drop (mainTemp ++ ["cbz_output"]).length) r.1)
  | .error fs2 => removeTree mainTemp fs2

theorem underDir_nil (p : FsPath) : underDir [] p = true := by
  cases p <;> rfl

theorem underDir_append (d r : FsPath) : underDir d (d ++ r) = true := by
  induction d with
  | nil => exact underDir_nil r
  | cons a t ih => simp [underDir, ih]

theorem underDir_comparable (a b p : FsPath) (ha : underDir a p = true)
    (hb : underDir b p = true) :
    underDir a b = true ∨ underDir b a = true := by
  induction p generalizing a b with
  | nil =>
      cases a with
      | nil => exact Or.inl (underDir_nil b)
      | cons x t => simp [underDir] at ha
  | cons c p ih =>
      cases a with
      | nil => exact Or.inl (underDir_nil b)
      | cons x a2 =>
          cases b with
          | nil => exact Or.inr (underDir_nil (x :: a2))
          | cons y b2 =>
              simp only [underDir, Bool.and_eq_true, beq_iff_eq] at ha hb
              obtain ⟨hx, ha2⟩ := ha
              obtain ⟨hy, hb2⟩ := hb
              subst hx
              subst hy
              rcases ih a2 b2 ha2 hb2 with h | h
              · exact Or.inl (by simp [underDir, h])
              · exact Or.inr (by simp [underDir, h])

theorem not_underDir_of_disjoint (d m p : FsPath)
    (hdm : underDir d m = false) (hmd : underDir m d = false)
    (hp : underDir m p = true) : underDir d p = false := by
  cases hdp : underDir d p with
  | false => rfl
  | true =>
      rcases underDir_comparable d m p hdp hp with h | h
      · rw [h] at hdm; cases hdm
      · rw [h] at hmd; cases hmd

theorem filesUnder_writeFile (d p : FsPath) (c : Bool) (fs : FS)
    (h : underDir d p = false) :
    filesUnder d (writeFile p c fs) = filesUnder d fs := by
  unfold filesUnder writeFile
  rw [List.filter_cons]
  simp only [h, cond_false]
  rw [List.filter_filter]
  apply List.filter_congr
  intro e _
  cases hu : underDir d e.1 with
  | false => simp [hu]
  | true =>
      cases hep : e.1 == p with
      | false => simp [hu, bne, hep]
      | true =>
          have : e.1 = p := eq_of_beq hep
          rw [this, h] at hu
          cases hu

theorem filesUnder_removeTree (d m : FsPath) (fs : FS)
    (hdm : underDir d m = false) (hmd : underDir m d = false) :
    filesUnder d (removeTree m fs) = filesUnder d fs := by
  unfold filesUnder removeTree
  rw [List.filter_filter]
  apply List.filter_congr
  intro e _
  cases hu : underDir d e.1 with
  | false => simp [hu]
  | true =>
      have hm : underDir m e.1 = false := by
        cases hme : underDir m e.1 with
        | false => rfl
        | true =>
            rcases underDir_comparable d m e.1 hu hme with h | h
            · rw [h] at hdm; cases hdm
            · rw [h] at hmd; cases hmd
      simp [hu, hm]

theorem filesUnder_foldl (d : FsPath) (g : FsPath → FsPath) (l : List FsPath)
    (fs : FS) (h : ∀ rp, underDir d (g rp) = false) :
    filesUnder d (l.foldl (fun a rp => writeFile (g rp) true a) fs)
      = filesUnder d fs := by
  induction l generalizing fs with
  | nil => rfl
  | cons rp rest ih =>
      rw [List.foldl_cons, ih, filesUnder_writeFile d (g rp) true fs (h rp)]

theorem mainProcessArchive_fail_eq (mainTemp finalDest : FsPath)
    (extracted : List FsPath) (name : String) (ym : Option (String × String))
    (fs : FS) :
    mainProcessArchive mainTemp finalDest extracted name ym false fs
      = removeTree mainTemp
          (writeFile ((mainTemp ++ ["cbz_output"]) ++ cbzRelPath name ym) false
            (extracted.foldl
              (fun a rp => writeFile (mainTemp ++ "extracted" :: rp) true a) fs)) :=
  rfl

theorem mainProcessArchive_ok_eq (mainTemp finalDest : FsPath)
    (extracted : List FsPath) (name : String) (ym : Option (String × String))
    (fs : FS) :
    mainProcessArchive mainTemp finalDest extracted name ym true fs
      = removeTree mainTemp
          (moveFile ((mainTemp ++ ["cbz_output"]) ++ cbzRelPath name ym)
            (finalDest ++ ((mainTemp ++ ["cbz_output"]) ++ cbzRelPath name ym).drop
              (mainTemp ++ ["cbz_output"]).length)
            (writeFile ((mainTemp ++ ["cbz_output"]) ++ cbzRelPath name ym) true
              (extracted.foldl
                (fun a rp => writeFile (mainTemp ++ "extracted" :: rp) true a) fs))) :=
  rfl

/-- C1: packaging builds the archive inside the private temporary
tree and only a fully-written archive reaches the public destination:
a packaging-step failure leaves the set of files under the final
destination unchanged (in particular empty when it started empty),
while a successful run exposes the archive there fully written. -/
theorem c1_atomic_packaging (mainTemp finalDest : FsPath)
    (extracted : List FsPath) (name : String) (ym : Option (String × String))
    (fs : FS)
    (hdm : underDir finalDest mainTemp = false)
    (hmd : underDir mainTemp finalDest = false) :
    filesUnder finalDest
        (mainProcessArchive mainTemp finalDest extracted name ym false fs)
      = filesUnder finalDest fs ∧
    (filesUnder finalDest fs = [] →
      filesUnder finalDest
          (mainProcessArchive mainTemp finalDest extracted name ym false fs)
        = []) ∧
    (mainProcessArchive mainTemp finalDest extracted name ym true fs).find?
        (fun e => e.1 == finalDest ++ cbzRelPath name ym)
      = some (finalDest ++ cbzRelPath name ym, true) := by
  have hext : ∀ rp : FsPath,
      underDir finalDest (mainTemp ++ "extracted" :: rp) = false := fun rp =>
    not_underDir_of_disjoint _ _ _ hdm hmd
      (underDir_append mainTemp ("extracted" :: rp))
  have hcbzu : underDir mainTemp
      ((mainTemp ++ ["cbz_output"]) ++ cbzRelPath name ym) = true := by
    rw [List.append_assoc]
    exact underDir_append _ _
  have hcbz : underDir finalDest
      ((mainTemp ++ ["cbz_output"]) ++ cbzRelPath name ym) = false :=
    not_underDir_of_disjoint _ _ _ hdm hmd hcbzu
  have hfs1 : filesUnder finalDest
      (extracted.foldl (fun a rp => writeFile (mainTemp ++ "extracted" :: rp) true a) fs)
      = filesUnder finalDest fs :=
    filesUnder_foldl finalDest (fun rp => mainTemp ++ "extracted" :: rp)
      extracted fs hext
  have hkeep : filesUnder finalDest
      (mainProcessArchive mainTemp finalDest extracted name ym false fs)
      = filesUnder finalDest fs := by
    rw [mainProcessArchive_fail_eq,
      filesUnder_removeTree _ _ _ hdm hmd,
      filesUnder_writeFile _ _ _ _ hcbz, hfs1]
  refine ⟨hkeep, fun hempty => hkeep.trans hempty, ?_⟩
  have hFPu : underDir mainTemp (finalDest ++ cbzRelPath name ym) = false :=
    not_underDir_of_disjoint mainTemp finalDest _ hmd hdm
      (underDir_append _ _)
  have hfind : (writeFile ((mainTemp ++ ["cbz_output"]) ++ cbzRelPath name ym) true
      (extracted.foldl (fun a rp => writeFile (mainTemp ++ "extracted" :: rp) true a) fs)).find?
        (fun e => e.1 == (mainTemp ++ ["cbz_output"]) ++ cbzRelPath name ym)
      = some ((mainTemp ++ ["cbz_output"]) ++ cbzRelPath name ym, true) := by
    rw [writeFile]
    exact List.find?_cons_of_pos _ (by simp)
  rw [mainProcessArchive_ok_eq, List.drop_left]
  rw [show moveFile ((mainTemp ++ ["cbz_output"]) ++ cbzRelPath name ym)
      (finalDest ++ cbzRelPath name ym)
      (writeFile ((mainTemp ++ ["cbz_output"]) ++ cbzRelPath name ym) true
        (extracted.foldl (fun a rp => writeFile (mainTemp ++ "extracted" :: rp) true a) fs))
      = writeFile (finalDest ++ cbzRelPath name ym) true
          ((writeFile ((mainTemp ++ ["cbz_output"]) ++ cbzRelPath name ym) true
            (extracted.foldl (fun a rp => writeFile (mainTemp ++ "extracted" :: rp) true a) fs)).filter
              (fun x => x.1 != (mainTemp ++ ["cbz_output"]) ++ cbzRelPath name ym))
    from by simp only [moveFile, hfind]]
  simp only [writeFile, removeTree]
  rw [List.filter_cons_of_pos (by simp [hFPu])]
  exact List.find?_cons_of_pos _ (by simp)

/-- Witness for `c1_atomic_packaging` at a concrete run: with an empty
destination, a failed packaging step leaves the destination empty, and
a successful one exposes exactly the fully-written archive. -/
theorem c1_atomic_packaging_witness :
    filesUnder ["out"] (mainProcessArchive ["tmp", "comic_process_x"] ["out"]
        [["001.jpg"]] "Unit" none false []) = [] ∧
    (mainProcessArchive ["tmp", "comic_process_x"] ["out"] [["001.jpg"]]
        "Unit" none true []).find?
        (fun e => e.1 == ["out"] ++ cbzRelPath "Unit" none)
      = some (["out"] ++ cbzRelPath "Unit" none, true) := by
  have h := c1_atomic_packaging ["tmp", "comic_process_x"] ["out"]
    [["001.jpg"]] "Unit" none [] (by decide) (by decide)
  exact ⟨h.2.1 rfl, h.2.2⟩

/-- The names bound at module level in `folder2cbz.py`: the imports
and the top-level functions and constants.  There is no module-level
binding named `author`. -/
def moduleGlobalNames : List String :=
  ["requests", "os", "shutil", "subprocess", "tempfile", "zipfile",
   "logging", "Path", "datetime", "Image", "re", "tqdm", "concurrent",
   "multiprocessing", "time", "traceback", "image_extensions",
   "setup_logging", "get_targz_files", "scan_library_with_env",
   "get_comic_date", "process_image", "cmd_runner", "compress_to_cbz",
   "get_img_dir_comb", "create_comicinfo_xml",
   "create_comicinfo_xml_galleryinfo", "process_comic_folder",
   "submit_dir_comb", "get_galleryinfo_dir_comb", "main"]

/-- The local names of `create_comicinfo_xml` (its parameters and the
names its body assigns before the f-string is evaluated). -/
def createComicinfoLocalNames : List String :=
  ["comic_target_dir", "mod_time", "comic_title", "comicinfo_path"]

/-- The ComicInfo template of `create_comicinfo_xml` (two-space
indentation, no Tags element), given values for its interpolations. -/
def comicinfoTemplate (comic_title author : String) (mod_time : PyDateTime) :
    String :=
  "<?xml version=\"1.0\" encoding=\"utf-8\"?>\n" ++
  "<ComicInfo xmlns:xsi=\"http://www.w3.org/2001/XMLSchema-instance\" xsi:noNamespaceSchemaLocation=\"ComicInfo.xsd\">\n" ++
  "  <Title>" ++ comic_title ++ "</Title>\n" ++
  "  <Writer>" ++ author ++ "</Writer>\n" ++
  "  <Year>" ++ natToStr mod_time.year ++ "</Year>\n" ++
  "  <Month>" ++ natToStr mod_time.month ++ "</Month>\n" ++
  "  <Day>" ++ natToStr mod_time.day ++ "</Day>\n" ++
  "</ComicInfo>\n"

/-- `create_comicinfo_xml` (lines 282-295): its f-string interpolates
the free name `author`, which python resolves in the function's local
scope, then the module globals, then builtins; the name is bound in
none of them, so evaluating the f-string raises `NameError` before any
content is produced.  (The interpolated value in the success branch is
unreachable and rendered from the name itself.) -/
def create_comicinfo_xml (comic_target_dir : String) (mod_time : PyDateTime)
    (comic_title : String) : Except String String :=
  if "author" ∈ createComicinfoLocalNames || "author" ∈ moduleGlobalNames then
    .ok (comicinfoTemplate comic_title "author" mod_time)
  else
    .error "NameError: name author is not defined"

/-- C10: every call of `create_comicinfo_xml` raises `NameError`
because the interpolated global name `author` is defined nowhere in
the module; the function can never complete successfully. -/
theorem c10_create_comicinfo_xml_name_error (comic_target_dir : String)
    (mod_time : PyDateTime) (comic_title : String) :
    create_comicinfo_xml comic_target_dir mod_time comic_title
      = .error "NameError: name author is not defined" := by
  rfl
